import Mathlib

/-!
Verification of the contradiction-detection core of justice-document-pip.

Shallow embedding of the Python sources:
  - `src/analyzer/id.py`        : `contradiction_id`
  - `src/analyzer/__init__.py`  : `evaluate`, `get_rules_fingerprint`
  - `src/analyzer/all_rules.py` : the registry contents (`get_all_rule_functions`)
  - `src/analyzer/rules_basic.py` : `event_date_disagreement`
  - `src/analyzer/rule_meta.py` : `RULE_META`, `SEVERITY_BASE`
  - `src/scripts/scoding.py`    : `RuleWeights._load_default_weights`,
                                  `RuleWeights.get_weight`,
                                  `ContradictionScorer._score_single_contradiction`

Python dictionaries are modelled as insertion-ordered association lists,
Python exceptions as `Except`, Python float literals of the scorer as exact
rationals, and `hashlib.sha256` / `hashlib.sha1` are embedded in full
(bit-faithful, over `Nat` with explicit reduction mod 2^32).
-/

/-! ## Python value model

A small universe for the Python values that flow through the analyzer:
strings, ints, booleans and `None`.  A statement or candidate record is a
Python dict, modelled as an insertion-ordered association list with
first-match lookup (dict literals in the source never repeat a key).
-/

inductive Value where
  | VStr : String → Value
  | VInt : Int → Value
  | VBool : Bool → Value
  | VNone : Value
deriving DecidableEq, Repr

open Value

/-- Python `str()` of a value (only the cases the analyzer can produce). -/
def pyStr : Value → String
  | VStr s => s
  | VInt n => toString n
  | VBool true => "True"
  | VBool false => "False"
  | VNone => "None"

/-- Python truthiness of a value. -/
def pyTruthy : Value → Bool
  | VStr s => s ≠ ""
  | VInt n => n ≠ 0
  | VBool b => b
  | VNone => false

/-- A Python dict with string keys: statements and candidate records. -/
abbrev PyDict := List (String × Value)

/-- Python `d.get(k)`: `none` models Python `None` for a missing key. -/
def pyGet (d : PyDict) (k : String) : Option Value := d.lookup k

abbrev Stmt := PyDict

/-! ## Bytes and hex -/

/-- UTF-8 encoding of one character, as `str.encode('utf-8')` produces it. -/
def utf8Bytes (c : Char) : List Nat :=
  let n := c.toNat
  if n < 0x80 then [n]
  else if n < 0x800 then [0xC0 ||| (n >>> 6), 0x80 ||| (n &&& 0x3F)]
  else if n < 0x10000 then
    [0xE0 ||| (n >>> 12), 0x80 ||| ((n >>> 6) &&& 0x3F), 0x80 ||| (n &&& 0x3F)]
  else
    [0xF0 ||| (n >>> 18), 0x80 ||| ((n >>> 12) &&& 0x3F), 0x80 ||| ((n >>> 6) &&& 0x3F),
     0x80 ||| (n &&& 0x3F)]

/-- Bytes of a string under UTF-8, as in `s.encode('utf-8')`. -/
def strBytes (s : String) : List Nat := s.data.flatMap utf8Bytes

/-- Lower-case hex digit for a nibble, as in `hexdigest()`. -/
def hexChar (n : Nat) : Char :=
  if n < 10 then Char.ofNat (48 + n) else Char.ofNat (87 + n)

/-- Two lower-case hex digits of a byte. -/
def byteToHex (b : Nat) : List Char := [hexChar (b / 16), hexChar (b % 16)]

/-- Big-endian bytes of a 32-bit word. -/
def wordToBytes (w : Nat) : List Nat :=
  [(w >>> 24) &&& 255, (w >>> 16) &&& 255, (w >>> 8) &&& 255, w &&& 255]

/-- Hex string of a list of 32-bit words (big-endian per word). -/
def wordsToHex (ws : List Nat) : String :=
  String.mk ((ws.flatMap wordToBytes).flatMap byteToHex)

/-- Python string slicing `s[:n]` (by characters). -/
def pyTake (n : Nat) (s : String) : String := String.mk (s.data.take n)

/-! ## 32-bit arithmetic over Nat -/

def M32 : Nat := 4294967296

def add32 (a b : Nat) : Nat := (a + b) % M32

def rotr32 (n x : Nat) : Nat := ((x >>> n) ||| (x <<< (32 - n))) % M32

def rotl32 (n x : Nat) : Nat := ((x <<< n) ||| (x >>> (32 - n))) % M32

def not32 (x : Nat) : Nat := x ^^^ 4294967295

/-! ## SHA-256 (hashlib.sha256), bit-faithful -/

def bsig0 (x : Nat) : Nat := (rotr32 2 x) ^^^ (rotr32 13 x) ^^^ (rotr32 22 x)
def bsig1 (x : Nat) : Nat := (rotr32 6 x) ^^^ (rotr32 11 x) ^^^ (rotr32 25 x)
def ssig0 (x : Nat) : Nat := (rotr32 7 x) ^^^ (rotr32 18 x) ^^^ ((x >>> 3) % M32)
def ssig1 (x : Nat) : Nat := (rotr32 17 x) ^^^ (rotr32 19 x) ^^^ ((x >>> 10) % M32)

def sha256K : List Nat :=
  [1116352408, 1899447441, 3049323471, 3921009573, 961987163, 1508970993,
   2453635748, 2870763221, 3624381080, 310598401, 607225278, 1426881987,
   1925078388, 2162078206, 2614888103, 3248222580, 3835390401, 4022224774,
   264347078, 604807628, 770255983, 1249150122, 1555081692, 1996064986,
   2554220882, 2821834349, 2952996808, 3210313671, 3336571891, 3584528711,
   113926993, 338241895, 666307205, 773529912, 1294757372, 1396182291,
   1695183700, 1986661051, 2177026350, 2456956037, 2730485921, 2820302411,
   3259730800, 3345764771, 3516065817, 3600352804, 4094571909, 275423344,
   430227734, 506948616, 659060556, 883997877, 958139571, 1322822218,
   1537002063, 1747873779, 1955562222, 2024104815, 2227730452, 2361852424,
   2428436474, 2756734187, 3204031479, 3329325298]

structure Sha256State where
  a : Nat
  b : Nat
  c : Nat
  d : Nat
  e : Nat
  f : Nat
  g : Nat
  h : Nat
deriving DecidableEq, Repr

def sha256Init : Sha256State :=
  ⟨1779033703, 3144134277, 1013904242, 2773480762, 1359893119, 2600822924, 528734635, 1541459225⟩

def sha256Round (st : Sha256State) (kw : Nat × Nat) : Sha256State :=
  let ch := (st.e &&& st.f) ^^^ ((not32 st.e) &&& st.g)
  let maj := (st.a &&& st.b) ^^^ (st.a &&& st.c) ^^^ (st.b &&& st.c)
  let t1 := add32 (add32 (add32 st.h (bsig1 st.e)) (add32 ch kw.1)) kw.2
  let t2 := add32 (bsig0 st.a) maj
  ⟨add32 t1 t2, st.a, st.b, st.c, add32 st.d t1, st.e, st.f, st.g⟩

/-- One extension step of the SHA-256 message schedule, on the reversed
schedule accumulated so far (newest word first). -/
def sha256ExtendStep (wrev : List Nat) : List Nat :=
  add32 (add32 (ssig1 (wrev.getD 1 0)) (wrev.getD 6 0))
        (add32 (ssig0 (wrev.getD 14 0)) (wrev.getD 15 0)) :: wrev

def sha256Schedule (block : List Nat) : List Nat :=
  ((List.range 48).foldl (fun wrev _ => sha256ExtendStep wrev) block.reverse).reverse

def sha256Compress (st : Sha256State) (block : List Nat) : Sha256State :=
  let w := sha256Schedule block
  let fin := (sha256K.zip w).foldl sha256Round st
  ⟨add32 st.a fin.a, add32 st.b fin.b, add32 st.c fin.c, add32 st.d fin.d,
   add32 st.e fin.e, add32 st.f fin.f, add32 st.g fin.g, add32 st.h fin.h⟩

def bytesToWords : List Nat → List Nat
  | b0 :: b1 :: b2 :: b3 :: rest => (((b0 * 256 + b1) * 256 + b2) * 256 + b3) :: bytesToWords rest
  | _ => []

def wordsToBlocks : List Nat → List (List Nat)
  | w0 :: w1 :: w2 :: w3 :: w4 :: w5 :: w6 :: w7 :: w8 :: w9 :: w10 :: w11 :: w12 :: w13 :: w14 :: w15 :: rest =>
      [w0, w1, w2, w3, w4, w5, w6, w7, w8, w9, w10, w11, w12, w13, w14, w15] :: wordsToBlocks rest
  | _ => []

/-- Big-endian byte list of `n`, exactly `k` bytes long. -/
def natToBytesBE (k : Nat) (n : Nat) : List Nat :=
  match k with
  | 0 => []
  | k + 1 => natToBytesBE k (n / 256) ++ [n % 256]

/-- Merkle–Damgård padding shared by SHA-1 and SHA-256: append `0x80`, zero
bytes up to 56 mod 64, then the bit length as a 64-bit big-endian integer. -/
def mdPad (msg : List Nat) : List Nat :=
  let L := msg.length
  let zeros := (119 - L % 64) % 64
  msg ++ [0x80] ++ List.replicate zeros 0 ++ natToBytesBE 8 (L * 8)

def sha256StateOf (msg : List Nat) : Sha256State :=
  (wordsToBlocks (bytesToWords (mdPad msg))).foldl sha256Compress sha256Init

/-- `hashlib.sha256(s.encode('utf-8')).hexdigest()`. -/
def sha256_hex (s : String) : String :=
  let st := sha256StateOf (strBytes s)
  wordsToHex [st.a, st.b, st.c, st.d, st.e, st.f, st.g, st.h]

/-! ## SHA-1 (hashlib.sha1), bit-faithful -/

structure Sha1State where
  a : Nat
  b : Nat
  c : Nat
  d : Nat
  e : Nat
deriving DecidableEq, Repr

def sha1Init : Sha1State := ⟨1732584193, 4023233417, 2562383102, 271733878, 3285377520⟩

def sha1F (i : Nat) (b c d : Nat) : Nat :=
  if i < 20 then (b &&& c) ||| ((not32 b) &&& d)
  else if i < 40 then b ^^^ c ^^^ d
  else if i < 60 then (b &&& c) ||| (b &&& d) ||| (c &&& d)
  else b ^^^ c ^^^ d

def sha1K (i : Nat) : Nat :=
  if i < 20 then 1518500249
  else if i < 40 then 1859775393
  else if i < 60 then 2400959708
  else 3395469782

def sha1ExtendStep (wrev : List Nat) : List Nat :=
  rotl32 1 (((wrev.getD 2 0) ^^^ (wrev.getD 7 0)) ^^^ ((wrev.getD 13 0) ^^^ (wrev.getD 15 0))) :: wrev

def sha1Schedule (block : List Nat) : List Nat :=
  ((List.range 64).foldl (fun wrev _ => sha1ExtendStep wrev) block.reverse).reverse

def sha1Round (st : Sha1State) (iw : Nat × Nat) : Sha1State :=
  let t := add32 (add32 (add32 (rotl32 5 st.a) (sha1F iw.1 st.b st.c st.d))
                 (add32 st.e (sha1K iw.1))) iw.2
  ⟨t, st.a, rotl32 30 st.b, st.c, st.d⟩

def sha1Compress (st : Sha1State) (block : List Nat) : Sha1State :=
  let w := sha1Schedule block
  let fin := ((List.range 80).zip w).foldl sha1Round st
  ⟨add32 st.a fin.a, add32 st.b fin.b, add32 st.c fin.c, add32 st.d fin.d, add32 st.e fin.e⟩

def sha1StateOf (msg : List Nat) : Sha1State :=
  (wordsToBlocks (bytesToWords (mdPad msg))).foldl sha1Compress sha1Init

/-- `hashlib.sha1(s.encode('utf-8')).hexdigest()`. -/
def sha1_hex (s : String) : String :=
  let st := sha1StateOf (strBytes s)
  wordsToHex [st.a, st.b, st.c, st.d, st.e]

/-! ## Python string comparison and sorting

Python compares strings lexicographically by Unicode code point; `sorted`
returns the ascending reordering.  `strLtB` is that strict order on the
character lists; `pySort` (an insertion sort on the reflexive closure) is
extensionally `sorted` for string lists.
-/

def strLtB : List Char → List Char → Bool
  | [], [] => false
  | [], _ :: _ => true
  | _ :: _, [] => false
  | a :: as, b :: bs =>
    if a.toNat < b.toNat then true
    else if b.toNat < a.toNat then false
    else strLtB as bs

/-- Python `x < y` on strings. -/
def pyStrLt (x y : String) : Bool := strLtB x.data y.data

/-- Python `x <= y` on strings. -/
def pyStrLe (x y : String) : Bool := !(pyStrLt y x)

def pyLeRel (x y : String) : Prop := pyStrLe x y = true

instance : DecidableRel pyLeRel := fun x y => inferInstanceAs (Decidable (pyStrLe x y = true))

/-- Python `sorted` on a list of strings (ascending; equal keys are
interchangeable, so stability is irrelevant extensionally). -/
def pySort (l : List String) : List String := l.insertionSort pyLeRel

/-- Python `sorted([x, y])` on a two-element list, as a pair. -/
def pySortPair (x y : String) : String × String :=
  if pyStrLt y x then (y, x) else (x, y)

/-! ## src/analyzer/id.py : contradiction_id -/

/-- The identifier string the source extracts from one statement:
`statement.get('id', str(statement.get('content', '')))`, then `str(...)`. -/
def stmtKey (s : Stmt) : String :=
  pyStr ((pyGet s "id").getD (VStr (pyStr ((pyGet s "content").getD (VStr "")))))

/-- `contradiction_id` from `src/analyzer/id.py`: sort the two identifier
strings, join with `"::"`, SHA-256, truncate to 16 hex characters. -/
def contradiction_id (statement_a statement_b : Stmt) : String :=
  let id_a := stmtKey statement_a
  let id_b := stmtKey statement_b
  let sorted_ids := pySortPair id_a id_b
  let hash_input := sorted_ids.1 ++ "::" ++ sorted_ids.2
  pyTake 16 (sha256_hex hash_input)

/-! ## src/analyzer/__init__.py : evaluate, get_rules_fingerprint

A rule is a named function from the statement list to either a candidate
list or a raised exception (`Except.error` carries `str(e)`).  The module's
process-wide registry is made an explicit argument.  `evaluate` is a total
Lean function: the embedding of the fact that no exception escapes it.
-/

structure Rule where
  name : String
  run : List Stmt → Except String (List PyDict)

/-- The synthetic engine-error entry appended when a rule raises. -/
def errorRecord (name msg : String) : PyDict :=
  [("contradiction_id", VStr ("error_" ++ name)),
   ("type", VStr "__engine_error__"),
   ("error", VStr msg),
   ("rule", VStr name),
   ("description", VStr ("Rule engine error in " ++ name ++ ": " ++ msg))]

/-- `evaluate` from `src/analyzer/__init__.py`: run every rule, extend the
accumulator with its candidates when non-empty, and append one engine-error
entry for a rule that raises. -/
def evaluate (rules : List Rule) (statements : List Stmt) : List PyDict :=
  rules.foldl (fun contradictions rule_func =>
    match rule_func.run statements with
    | .ok rule_contradictions =>
        if rule_contradictions.isEmpty then contradictions
        else contradictions ++ rule_contradictions
    | .error e => contradictions ++ [errorRecord rule_func.name e]) []

/-- What one rule contributes to `evaluate`'s output. -/
def runOut (statements : List Stmt) (r : Rule) : List PyDict :=
  match r.run statements with
  | .ok cs => cs
  | .error e => [errorRecord r.name e]

/-- The candidates of a rule that did not raise. -/
def okOut (statements : List Stmt) (r : Rule) : List PyDict :=
  ((r.run statements).toOption).getD []

/-- The rule names `get_all_rule_functions` actually collects, in
registration order: the core name `event_date_disagreement` is checked but
never present (`all_rules.py` does not import `rules_basic.py`), while the
two remaining core rules and all four optional rules import cleanly. -/
def availableRuleNames : List String :=
  ["presence_absence_conflict", "numeric_amount_mismatch",
   "status_change_inconsistency", "location_contradiction",
   "role_responsibility_conflict", "date_range_overlap_conflict"]

/-- `get_rules_fingerprint` from `src/analyzer/__init__.py`, with the
registry contents as the explicit argument:
`sha1("|".join(sorted(rule_names))).hexdigest()[:12]`. -/
def get_rules_fingerprint (ruleNames : List String) : String :=
  pyTake 12 (sha1_hex (String.intercalate "|" (pySort ruleNames)))

/-! ## src/analyzer/rules_basic.py : event_date_disagreement -/

structure RuleContext where
  doc_id : String
  statements : List Stmt
deriving DecidableEq

/-- The `Contradiction` dataclass of `src/analyzer/rules.py`.  The source
passes the raw `event_id` value as `key`, so the field is a `Value`. -/
structure Contradiction where
  rule : String
  severity : String
  key : Value
  rationale : String
  a : Stmt
  b : Stmt
deriving DecidableEq

/-- `dict.setdefault(key, []).append(s)` on an insertion-ordered dict of
lists. -/
def upsertGroup (key : Value) (s : Stmt) : List (Value × List Stmt) → List (Value × List Stmt)
  | [] => [(key, [s])]
  | (k, v) :: rest =>
      if k = key then (k, v ++ [s]) :: rest else (k, v) :: upsertGroup key s rest

/-- The nested `by_event.setdefault(event_id, {}).setdefault(date, []).append(s)`. -/
def upsertEventDate (eid date : Value) (s : Stmt) :
    List (Value × List (Value × List Stmt)) → List (Value × List (Value × List Stmt))
  | [] => [(eid, [(date, [s])])]
  | (k, groups) :: rest =>
      if k = eid then (k, upsertGroup date s groups) :: rest
      else (k, groups) :: upsertEventDate eid date s rest

/-- The grouping loop of `event_date_disagreement`: keep `EVENT_DATE`
statements with truthy `event_id` and `date`, grouped by event then date,
in insertion order. -/
def eventDateGroups (statements : List Stmt) : List (Value × List (Value × List Stmt)) :=
  statements.foldl (fun acc s =>
    if pyGet s "type" ≠ some (VStr "EVENT_DATE") then acc
    else
      let eid := (pyGet s "event_id").getD VNone
      let date := (pyGet s "date").getD VNone
      if ¬ pyTruthy eid ∨ ¬ pyTruthy date then acc
      else upsertEventDate eid date s acc) []

/-- All pairs `(l[i], l[j])` with `i < j`, in the order of the source's
nested loops. -/
def distinctPairs {α : Type} : List α → List (α × α)
  | [] => []
  | x :: xs => (xs.map (fun y => (x, y))) ++ distinctPairs xs

/-- `event_date_disagreement` from `src/analyzer/rules_basic.py`: one
high-severity contradiction per unordered pair of distinct dates recorded
for the same event, using the first statement of each date group. -/
def event_date_disagreement (ctx : RuleContext) : List Contradiction :=
  (eventDateGroups ctx.statements).flatMap (fun eg =>
    if eg.2.length ≤ 1 then []
    else (distinctPairs eg.2).map (fun dp =>
      { rule := "event_date_disagreement"
        severity := "high"
        key := eg.1
        rationale := "Event " ++ pyStr eg.1 ++ " has conflicting dates: " ++
          pyStr dp.1.1 ++ " vs " ++ pyStr dp.2.1 ++ "."
        a := dp.1.2.headD []
        b := dp.2.2.headD [] }))

/-! ## src/analyzer/rule_meta.py -/

structure RuleMetaEntry where
  title : String
  description : String
  base_weight : Nat
  suggested_action : String
deriving DecidableEq

def RULE_META : List (String × RuleMetaEntry) :=
  [("event_date_disagreement",
    ⟨"Event Date Disagreement",
     "Multiple statements assert different dates for the same event.", 7,
     "Verify the correct event date in original documents."⟩),
   ("presence_absence_conflict",
    ⟨"Presence vs Absence",
     "A party is recorded both present and absent for the same event.", 5,
     "Confirm attendance or clarify witness statements."⟩),
   ("numeric_amount_mismatch",
    ⟨"Numeric Amount Mismatch",
     "Different monetary amounts are reported for the same event or context.", 6,
     "Check transactional or financial records for the authoritative value."⟩),
   ("status_flip_without_transition",
    ⟨"Status Flip",
     "Same target recorded with opposite terminal statuses (e.g., granted vs denied).", 8,
     "Check docket or authoritative system of record."⟩),
   ("location_mismatch",
    ⟨"Location Mismatch",
     "Same event described in different locations.", 5,
     "Verify venue/logistics details."⟩)]

def SEVERITY_BASE : List (String × Nat) := [("low", 1), ("medium", 2), ("high", 3)]

/-! ## src/scripts/scoding.py : the contradiction scorer

Python float literals are modelled as exact rationals; `round(x, 1)` as
rounding to the nearest multiple of 1/10 (`Mathlib.round` rounds half up,
Python half to even — the developments below stay away from ties).
-/

abbrev Weights := List (String × List (String × ℚ))

/-- `RuleWeights._load_default_weights`, used whenever
`analyzer/rule_weights.json` is missing or invalid (it is absent from the
repository). -/
def defaultWeights : Weights :=
  [("legal_violations",
    [("brady_violation", 9/10), ("due_process", 4/5), ("evidence_tampering", 1),
     ("perjury", 17/20), ("capta_violation", 7/10)]),
   ("document_integrity",
    [("name_alteration", 4/5), ("content_modification", 3/4),
     ("timeline_inconsistency", 7/10), ("numeric_changes", 13/20)]),
   ("pattern_analysis",
    [("systematic_suppression", 19/20), ("cross_document_inconsistency", 4/5),
     ("temporal_anomaly", 7/10), ("content_length_changes", 3/5)]),
   ("confidence_thresholds",
    [("critical", 17/20), ("high", 7/10), ("medium", 1/2), ("low", 3/10)])]

/-- `RuleWeights.get_weight`: `self.weights.get(category, {}).get(rule, default)`. -/
def get_weight (w : Weights) (category rule : String) (default : ℚ) : ℚ :=
  (((w.lookup category).getD []).lookup rule).getD default

/-- The severity multiplier table of `_score_single_contradiction`,
with its `.get(severity, 1.0)` fallback. -/
def severity_multiplier (sev : String) : ℚ :=
  (([("low", (4:ℚ)/5), ("medium", 1), ("high", 6/5), ("critical", 3/2)]).lookup sev).getD 1

/-- Python `round(q, 1)` away from ties: nearest multiple of 1/10. -/
def pyRound1 (q : ℚ) : ℚ := (round (q * 10) : ℤ) / 10

/-- The fields `_score_single_contradiction` computes and attaches to the
scored record. -/
structure ScoredFields where
  base_confidence : ℚ
  rule_weight : ℚ
  weighted_score : ℚ
deriving DecidableEq

/-- `ContradictionScorer._score_single_contradiction`, reduced to the three
input fields it reads (`type`, `confidence`, `severity`, each with its
`.get` default) and the fields it computes. -/
def score_single_contradiction (w : Weights)
    (ctype : Option String) (confidence : Option ℚ) (severity : Option String) :
    ScoredFields :=
  let contradiction_type := ctype.getD "unknown"
  let conf := confidence.getD (1/2)
  let sev := severity.getD "medium"
  let weight :=
    if contradiction_type = "timeline_inconsistency" ∨ contradiction_type = "temporal_anomaly" then
      get_weight w "document_integrity" "timeline_inconsistency" (7/10)
    else if contradiction_type = "name_alteration" then
      get_weight w "document_integrity" "name_alteration" (4/5)
    else if contradiction_type = "content_modification" then
      get_weight w "document_integrity" "content_modification" (3/4)
    else
      get_weight w "pattern_analysis" "cross_document_inconsistency" (4/5)
  let weighted_score := conf * weight * severity_multiplier sev * 100
  ⟨conf, weight, pyRound1 weighted_score⟩

/-! ## Helper lemmas: the Python string order -/

theorem strLtB_asymm (a : List Char) : ∀ b, strLtB a b = true → strLtB b a = false := by
  induction a with
  | nil => intro b h; cases b with
    | nil => simp [strLtB] at h
    | cons y ys => simp [strLtB]
  | cons x xs ih => intro b h; cases b with
    | nil => simp [strLtB] at h
    | cons y ys =>
      simp only [strLtB] at h ⊢
      by_cases h1 : x.toNat < y.toNat
      · have h2 : ¬ y.toNat < x.toNat := Nat.lt_asymm h1
        simp [h1, h2]
      · by_cases h2 : y.toNat < x.toNat
        · simp [h1, h2] at h
        · simp only [h1, h2, if_false] at h ⊢
          simp [ih ys h]

theorem strLtB_conn (a : List Char) :
    ∀ b, strLtB a b = false → strLtB b a = false → a = b := by
  induction a with
  | nil => intro b hab _; cases b with
    | nil => rfl
    | cons y ys => simp [strLtB] at hab
  | cons x xs ih => intro b hab hba; cases b with
    | nil => simp [strLtB] at hba
    | cons y ys =>
      simp only [strLtB] at hab hba
      by_cases h1 : x.toNat < y.toNat
      · simp [h1] at hab
      · by_cases h2 : y.toNat < x.toNat
        · simp [h2, Nat.lt_asymm h2] at hba
        · simp only [h1, h2, if_false] at hab hba
          have hn : x.toNat = y.toNat := by omega
          have hxy : x = y := by
            apply Char.eq_of_val_eq
            apply UInt32.eq_of_toBitVec_eq
            apply BitVec.eq_of_toNat_eq
            exact hn
          rw [hxy, ih ys hab hba]

theorem strLtB_trans (a : List Char) :
    ∀ b c, strLtB a b = true → strLtB b c = true → strLtB a c = true := by
  induction a with
  | nil => intro b c _ hbc; cases c with
    | nil =>
      cases b with
      | nil => simp [strLtB] at hbc
      | cons y ys => simp [strLtB] at hbc
    | cons z zs => simp [strLtB]
  | cons x xs ih =>
    intro b c hab hbc
    cases b with
    | nil => simp [strLtB] at hab
    | cons y ys =>
      cases c with
      | nil => simp [strLtB] at hbc
      | cons z zs =>
        simp only [strLtB] at hab hbc ⊢
        by_cases hxy : x.toNat < y.toNat
        · by_cases hyz : y.toNat < z.toNat
          · simp [Nat.lt_trans hxy hyz]
          · by_cases hzy : z.toNat < y.toNat
            · simp [hyz, hzy] at hbc
            · have : y.toNat = z.toNat := by omega
              simp [this ▸ hxy]
        · by_cases hyx : y.toNat < x.toNat
          · simp [hxy, hyx] at hab
          · have hxy' : x.toNat = y.toNat := by omega
            by_cases hyz : y.toNat < z.toNat
            · simp [hxy' ▸ hyz]
            · by_cases hzy : z.toNat < y.toNat
              · simp [hyz, hzy] at hbc
              · have hyz' : y.toNat = z.toNat := by omega
                have hxz1 : ¬ x.toNat < z.toNat := by omega
                have hxz2 : ¬ z.toNat < x.toNat := by omega
                simp only [hxy, hyx, if_false] at hab
                simp only [hyz, hzy, if_false] at hbc
                simp [hxz1, hxz2, ih ys zs hab hbc]

theorem string_data_inj {x y : String} (h : x.data = y.data) : x = y := by
  cases x
  cases y
  exact congrArg String.mk h

instance : IsTotal String pyLeRel := by
  constructor
  intro x y
  by_cases h : pyStrLt y x = true
  · right
    have := strLtB_asymm y.data x.data h
    simp [pyLeRel, pyStrLe, pyStrLt, this]
  · left
    simp [pyLeRel, pyStrLe, pyStrLt] at h ⊢
    simp [h]

instance : IsTrans String pyLeRel := by
  constructor
  intro x y z hxy hyz
  simp only [pyLeRel, pyStrLe, pyStrLt, Bool.not_eq_true'] at hxy hyz ⊢
  by_cases hzx : strLtB z.data x.data = true
  · exfalso
    by_cases hxy' : strLtB x.data y.data = true
    · have := strLtB_trans z.data x.data y.data hzx hxy'
      simp [this] at hyz
    · have hx : x.data = y.data :=
        strLtB_conn x.data y.data (by simpa using hxy') hxy
      rw [hx] at hzx
      simp [hzx] at hyz
  · simpa using hzx

instance : IsAntisymm String pyLeRel := by
  constructor
  intro x y hxy hyx
  simp only [pyLeRel, pyStrLe, pyStrLt, Bool.not_eq_true'] at hxy hyx
  exact string_data_inj (strLtB_conn x.data y.data hyx hxy)

theorem pySort_eq_of_perm {l₁ l₂ : List String} (h : l₁.Perm l₂) : pySort l₁ = pySort l₂ :=
  List.eq_of_perm_of_sorted
    ((List.perm_insertionSort pyLeRel l₁).trans (h.trans (List.perm_insertionSort pyLeRel l₂).symm))
    (List.sorted_insertionSort pyLeRel l₁)
    (List.sorted_insertionSort pyLeRel l₂)

theorem pySortPair_comm (x y : String) : pySortPair x y = pySortPair y x := by
  unfold pySortPair
  cases hyx : pyStrLt y x with
  | true =>
    have hxy : pyStrLt x y = false := strLtB_asymm y.data x.data hyx
    simp [hxy]
  | false =>
    cases hxy : pyStrLt x y with
    | true => simp
    | false =>
      have : x = y := string_data_inj (strLtB_conn x.data y.data hxy hyx)
      subst this
      rfl

/-! ## Helper lemmas: evaluate as a concatenation -/

theorem evaluate_step (acc : List PyDict) (r : Rule) (stmts : List Stmt) :
    (match r.run stmts with
     | .ok cs => if cs.isEmpty then acc else acc ++ cs
     | .error e => acc ++ [errorRecord r.name e]) = acc ++ runOut stmts r := by
  unfold runOut
  cases h : r.run stmts with
  | ok cs =>
    cases cs with
    | nil => simp
    | cons c cs' => simp
  | error e => simp

theorem evaluate_foldl (stmts : List Stmt) (rules : List Rule) :
    ∀ acc : List PyDict,
      rules.foldl (fun contradictions rule_func =>
        match rule_func.run stmts with
        | .ok rule_contradictions =>
            if rule_contradictions.isEmpty then contradictions
            else contradictions ++ rule_contradictions
        | .error e => contradictions ++ [errorRecord rule_func.name e]) acc =
      acc ++ rules.flatMap (runOut stmts) := by
  induction rules with
  | nil => intro acc; simp
  | cons r rs ih =>
    intro acc
    simp only [List.foldl_cons, List.flatMap_cons]
    rw [evaluate_step acc r stmts, ih (acc ++ runOut stmts r), List.append_assoc]

theorem evaluate_eq_flatMap (rules : List Rule) (stmts : List Stmt) :
    evaluate rules stmts = rules.flatMap (runOut stmts) := by
  unfold evaluate
  simpa using evaluate_foldl stmts rules []

/-! ## Helper lemmas: digest shape -/

theorem wordsToHex_data_length (ws : List Nat) : (wordsToHex ws).data.length = 8 * ws.length := by
  induction ws with
  | nil => rfl
  | cons w ws ih =>
    simp only [wordsToHex, List.flatMap_cons, List.append_assoc] at ih ⊢
    simp only [List.flatMap_append, List.length_append] at ih ⊢
    simp [wordToBytes, byteToHex] at ih ⊢
    omega

theorem sha256_hex_data_length (s : String) : (sha256_hex s).data.length = 64 := by
  simp only [sha256_hex]
  rw [wordsToHex_data_length]
  rfl

theorem sha1_hex_data_length (s : String) : (sha1_hex s).data.length = 40 := by
  simp only [sha1_hex]
  rw [wordsToHex_data_length]
  rfl

/-- Hex digits produced by `hexdigest()`. -/
def isHexChar (c : Char) : Bool := "0123456789abcdef".data.contains c

theorem hexChar_isHex (n : Nat) (h : n < 16) : isHexChar (hexChar n) = true := by
  interval_cases n <;> decide

theorem byteToHex_isHex (b : Nat) (hb : b < 256) :
    ∀ c ∈ byteToHex b, isHexChar c = true := by
  intro c hc
  simp only [byteToHex, List.mem_cons, List.not_mem_nil, or_false] at hc
  rcases hc with rfl | rfl
  · exact hexChar_isHex _ (Nat.div_lt_of_lt_mul (by omega))
  · exact hexChar_isHex _ (Nat.mod_lt _ (by omega))

theorem wordToBytes_lt (w : Nat) : ∀ b ∈ wordToBytes w, b < 256 := by
  intro b hb
  simp only [wordToBytes, List.mem_cons, List.not_mem_nil, or_false] at hb
  rcases hb with rfl | rfl | rfl | rfl <;>
    exact Nat.lt_succ_of_le (Nat.and_le_right)

theorem wordsToHex_isHex (ws : List Nat) :
    ∀ c ∈ (wordsToHex ws).data, isHexChar c = true := by
  intro c hc
  simp only [wordsToHex, List.mem_flatMap] at hc
  obtain ⟨b, hb, hcb⟩ := hc
  obtain ⟨w, _, hbw⟩ := hb
  exact byteToHex_isHex b (wordToBytes_lt w b hbw) c hcb

theorem sha256_hex_isHex (s : String) :
    ∀ c ∈ (sha256_hex s).data, isHexChar c = true := by
  intro c hc
  exact wordsToHex_isHex _ c hc

/-! ## Derived facts about contradiction_id -/

theorem contradiction_id_length (a b : Stmt) : (contradiction_id a b).length = 16 := by
  show (contradiction_id a b).data.length = 16
  unfold contradiction_id pyTake
  rw [List.length_take, sha256_hex_data_length]
  rfl

theorem contradiction_id_isHex (a b : Stmt) :
    ∀ c ∈ (contradiction_id a b).data, isHexChar c = true := by
  intro c hc
  unfold contradiction_id pyTake at hc
  exact sha256_hex_isHex _ c (List.mem_of_mem_take hc)

/-! ## Claim C2 -/

/-- C2: for every pair of statement records `a` and `b`,
`contradiction_id a b = contradiction_id b a` — the identity assigned to a
candidate is invariant under swapping the order of its two statements. -/
theorem contradiction_id_symm (a b : Stmt) :
    contradiction_id a b = contradiction_id b a := by
  show pyTake 16 (sha256_hex ((pySortPair (stmtKey a) (stmtKey b)).1 ++ "::" ++
      (pySortPair (stmtKey a) (stmtKey b)).2)) =
    pyTake 16 (sha256_hex ((pySortPair (stmtKey b) (stmtKey a)).1 ++ "::" ++
      (pySortPair (stmtKey b) (stmtKey a)).2))
  rw [pySortPair_comm]

/-! ## Claim C3 -/

/-- C3 counterexample: the id the code assigns to a candidate cannot be a
function of `(rule_name, group_key, fingerprint a, fingerprint b)` that
incorporates the rule name: `contradiction_id` reads only the two
statements, so two candidates produced by different rules (here with
different group keys as well) over the same concrete statement pair
receive the same id, contradicting any rule-name-sensitive `F`. -/
theorem contradiction_id_ignores_rule_and_group_key :
    ¬ ∃ (F : String → String → String → String → String) (fg : Stmt → String),
      (∀ rule_name group_key a b,
        contradiction_id a b = F rule_name group_key (fg a) (fg b)) ∧
      (∀ rn rn' gk fa fb, rn ≠ rn' → F rn gk fa fb ≠ F rn' gk fa fb) := by
  rintro ⟨F, fg, h1, h2⟩
  have e1 := h1 "event_date_disagreement" "evt1"
    [("id", VStr "s1")] [("id", VStr "s2")]
  have e2 := h1 "numeric_amount_mismatch" "evt1"
    [("id", VStr "s1")] [("id", VStr "s2")]
  exact h2 "event_date_disagreement" "numeric_amount_mismatch" "evt1"
    (fg [("id", VStr "s1")]) (fg [("id", VStr "s2")])
    (by decide) (e1.symm.trans e2)

/-- C3 amended: `contradiction_id` is computed from the two statements
alone — take each statement's `id` (or `str(content)` when `id` is absent),
sort the two strings, join with `"::"`, SHA-256-hash once, truncate to 16
hex characters; rule name and group key are not inputs. -/
theorem contradiction_id_composition (a b : Stmt) :
    contradiction_id a b =
      pyTake 16 (sha256_hex ((pySortPair (stmtKey a) (stmtKey b)).1 ++ "::" ++
        (pySortPair (stmtKey a) (stmtKey b)).2)) ∧
    (contradiction_id a b).length = 16 :=
  ⟨rfl, contradiction_id_length a b⟩

/-! ## Claim C10 -/

/-- Two statements agree on the identifying material `contradiction_id`
reads: the same `id` value, or (both lacking `id`) the same `str` of their
`content`. -/
def sameIdOrContent (a a' : Stmt) : Prop :=
  (∃ v, pyGet a "id" = some v ∧ pyGet a' "id" = some v) ∨
  (pyGet a "id" = none ∧ pyGet a' "id" = none ∧
    pyStr ((pyGet a "content").getD (VStr "")) = pyStr ((pyGet a' "content").getD (VStr "")))

theorem sameIdOrContent_stmtKey {a a' : Stmt} (h : sameIdOrContent a a') :
    stmtKey a = stmtKey a' := by
  unfold stmtKey
  rcases h with ⟨v, h1, h2⟩ | ⟨h1, h2, h3⟩
  · rw [h1, h2]
    rfl
  · rw [h1, h2]
    simpa [pyStr] using h3

/-- C10: `contradiction_id` depends only on each statement's `id` (or,
absent that, the string form of its `content`): statements agreeing there
receive the same id no matter how every other field differs, and the id is
always 16 hex characters. -/
theorem contradiction_id_pure_in_ids
    (a a' b b' : Stmt) (ha : sameIdOrContent a a') (hb : sameIdOrContent b b') :
    contradiction_id a b = contradiction_id a' b' ∧
    (contradiction_id a b).length = 16 ∧
    (∀ c ∈ (contradiction_id a b).data, isHexChar c = true) := by
  refine ⟨?_, contradiction_id_length a b, contradiction_id_isHex a b⟩
  unfold contradiction_id
  rw [sameIdOrContent_stmtKey ha, sameIdOrContent_stmtKey hb]

/-- C10 witness: concrete statements differing in every field except the
identifying material. -/
theorem contradiction_id_pure_in_ids_witness :
    sameIdOrContent [("id", VStr "s1"), ("event_id", VStr "E1")]
      [("id", VStr "s1"), ("event_id", VStr "E2"), ("party", VStr "Noel")] ∧
    sameIdOrContent [("id", VStr "s2")] [("id", VStr "s2"), ("date", VStr "2025-01-01")] ∧
    (contradiction_id [("id", VStr "s1"), ("event_id", VStr "E1")] [("id", VStr "s2")] =
      contradiction_id [("id", VStr "s1"), ("event_id", VStr "E2"), ("party", VStr "Noel")]
        [("id", VStr "s2"), ("date", VStr "2025-01-01")] ∧
     (contradiction_id [("id", VStr "s1"), ("event_id", VStr "E1")] [("id", VStr "s2")]).length = 16 ∧
     (∀ c ∈ (contradiction_id [("id", VStr "s1"), ("event_id", VStr "E1")] [("id", VStr "s2")]).data,
        isHexChar c = true)) :=
  ⟨Or.inl ⟨VStr "s1", rfl, rfl⟩, Or.inl ⟨VStr "s2", rfl, rfl⟩,
   contradiction_id_pure_in_ids _ _ _ _ (Or.inl ⟨VStr "s1", rfl, rfl⟩) (Or.inl ⟨VStr "s2", rfl, rfl⟩)⟩

/-! ## Claim C1 -/

theorem flatMap_runOut_ok (stmts : List Stmt) (l : List Rule)
    (hl : ∀ r ∈ l, (r.run stmts).isOk = true) :
    l.flatMap (runOut stmts) = l.flatMap (okOut stmts) := by
  induction l with
  | nil => rfl
  | cons r rs ih =>
    simp only [List.flatMap_cons]
    have h1 : (r.run stmts).isOk = true := hl r (by simp)
    have h2 : runOut stmts r = okOut stmts r := by
      unfold runOut okOut
      cases h : r.run stmts with
      | ok cs => simp [Except.toOption]
      | error e => rw [h] at h1; simp [Except.isOk, Except.toBool] at h1
    rw [h2, ih (fun r hr => hl r (by simp [hr]))]

/-- C1: for every statement list and every registry in which exactly one
rule raises (`bad`, raising `e`) while all others return normally,
`evaluate` returns every other rule's candidates in order plus exactly one
engine-error entry in the failing rule's position.  `evaluate` is a total
function of the modelled rule results, which embeds the guarantee that no
exception propagates out of it. -/
theorem evaluate_fault_isolation
    (pre post : List Rule) (bad : Rule) (stmts : List Stmt) (e : String)
    (hpre : ∀ r ∈ pre, (r.run stmts).isOk = true)
    (hpost : ∀ r ∈ post, (r.run stmts).isOk = true)
    (hbad : bad.run stmts = .error e) :
    evaluate (pre ++ bad :: post) stmts =
      pre.flatMap (okOut stmts) ++ errorRecord bad.name e :: post.flatMap (okOut stmts) := by
  rw [evaluate_eq_flatMap, List.flatMap_append, List.flatMap_cons]
  have hbadOut : runOut stmts bad = [errorRecord bad.name e] := by
    unfold runOut; rw [hbad]
  rw [hbadOut, flatMap_runOut_ok stmts pre hpre, flatMap_runOut_ok stmts post hpost]
  simp

def c1good_a : Rule := ⟨"good_a", fun _ => .ok [[("type", VStr "candidate_a")]]⟩

def c1bad : Rule := ⟨"bad_rule", fun _ => .error "division by zero"⟩

def c1good_b : Rule := ⟨"good_b", fun _ => .ok [[("type", VStr "candidate_b")]]⟩

/-- C1 witness: a three-rule registry whose middle rule raises. -/
theorem evaluate_fault_isolation_witness :
    (∀ r ∈ [c1good_a], (r.run []).isOk = true) ∧
    (∀ r ∈ [c1good_b], (r.run []).isOk = true) ∧
    c1bad.run [] = .error "division by zero" ∧
    evaluate ([c1good_a] ++ c1bad :: [c1good_b]) [] =
      [c1good_a].flatMap (okOut []) ++
        errorRecord "bad_rule" "division by zero" :: [c1good_b].flatMap (okOut []) :=
  ⟨by decide, by decide, rfl,
   evaluate_fault_isolation [c1good_a] [c1good_b] c1bad [] "division by zero"
     (by decide) (by decide) rfl⟩

/-! ## Claim C4 -/

def dupRule : Rule :=
  ⟨"dup_rule", fun _ => .ok [[("contradiction_id", VStr "x")], [("contradiction_id", VStr "x")]]⟩

/-- C4 counterexample: a registry whose rule emits two records with the
same `contradiction_id` — `evaluate` keeps both, so the final list holds
two records for one distinct id. -/
theorem evaluate_duplicate_ids_kept :
    (evaluate [dupRule] []).countP
      (fun r => decide (pyGet r "contradiction_id" = some (VStr "x"))) = 2 ∧
    ¬ ((evaluate [dupRule] []).countP
      (fun r => decide (pyGet r "contradiction_id" = some (VStr "x"))) ≤ 1) := by
  decide

/-- C4 amended: the pipeline performs no deduplication at all — its output
is exactly the concatenation of the per-rule outputs (candidates, or one
engine-error entry for a raising rule), and every record is kept with its
full multiplicity. -/
theorem evaluate_no_dedup (rules : List Rule) (stmts : List Stmt) :
    evaluate rules stmts = rules.flatMap (runOut stmts) ∧
    ∀ rcd : PyDict, (evaluate rules stmts).count rcd =
      (rules.map (fun r => (runOut stmts r).count rcd)).sum := by
  refine ⟨evaluate_eq_flatMap rules stmts, ?_⟩
  intro rcd
  rw [evaluate_eq_flatMap]
  induction rules with
  | nil => rfl
  | cons r rs ih =>
    simp only [List.flatMap_cons, List.count_append, List.map_cons, List.sum_cons, ih]

/-! ## Claim C5 -/

def unsortedScoresRule : Rule :=
  ⟨"unsorted_rule", fun _ => .ok
    [[("contradiction_id", VStr "aa"), ("score", VInt 1)],
     [("contradiction_id", VStr "bb"), ("score", VInt 5)]]⟩

/-- C5 counterexample: `evaluate` emits the rule's records unchanged, so
adjacent output records carry ascending scores (1 before 5), violating the
claimed score-descending sort. -/
theorem evaluate_output_not_sorted_by_score :
    evaluate [unsortedScoresRule] [] =
      [[("contradiction_id", VStr "aa"), ("score", VInt 1)],
       [("contradiction_id", VStr "bb"), ("score", VInt 5)]] ∧
    pyGet [("contradiction_id", VStr "aa"), ("score", VInt 1)] "score" = some (VInt 1) ∧
    pyGet [("contradiction_id", VStr "bb"), ("score", VInt 5)] "score" = some (VInt 5) ∧
    (1 : Int) < 5 := by
  refine ⟨rfl, rfl, rfl, by decide⟩

/-- C5 amended: the pipeline imposes no ordering of its own — output order
is registration order, each rule's candidates following in emission order,
so the order depends directly on rule execution order. -/
theorem evaluate_order_is_registration_order
    (r1 r2 : Rule) (stmts : List Stmt) (c1 c2 : List PyDict)
    (h1 : r1.run stmts = .ok c1) (h2 : r2.run stmts = .ok c2) :
    evaluate [r1, r2] stmts = c1 ++ c2 ∧ evaluate [r2, r1] stmts = c2 ++ c1 := by
  have o1 : runOut stmts r1 = c1 := by unfold runOut; rw [h1]
  have o2 : runOut stmts r2 = c2 := by unfold runOut; rw [h2]
  constructor <;> rw [evaluate_eq_flatMap] <;> simp [o1, o2]

def c5r1 : Rule := ⟨"rule_one", fun _ => .ok [[("score", VInt 1)]]⟩

def c5r2 : Rule := ⟨"rule_two", fun _ => .ok [[("score", VInt 5)]]⟩

/-- C5 witness: two concrete single-candidate rules registered both ways. -/
theorem evaluate_order_is_registration_order_witness :
    c5r1.run [] = .ok [[("score", VInt 1)]] ∧
    c5r2.run [] = .ok [[("score", VInt 5)]] ∧
    (evaluate [c5r1, c5r2] [] = [[("score", VInt 1)]] ++ [[("score", VInt 5)]] ∧
     evaluate [c5r2, c5r1] [] = [[("score", VInt 5)]] ++ [[("score", VInt 1)]]) :=
  ⟨rfl, rfl,
   evaluate_order_is_registration_order c5r1 c5r2 []
     [[("score", VInt 1)]] [[("score", VInt 5)]] rfl rfl⟩

/-! ## Claim C6 -/

def c6bad : Rule := ⟨"crashing_rule", fun _ => .error "division by zero"⟩

/-- C6 counterexample: the synthetic entry for a raising rule has no
`rule_name`, `severity` or `rationale` field at all — the engine marker
lives in `type`, the rule's name in `rule`, and the message in
`description`. -/
theorem engine_error_entry_counterexample :
    evaluate [c6bad] [] = [errorRecord "crashing_rule" "division by zero"] ∧
    pyGet (errorRecord "crashing_rule" "division by zero") "rule_name" = none ∧
    pyGet (errorRecord "crashing_rule" "division by zero") "severity" = none ∧
    pyGet (errorRecord "crashing_rule" "division by zero") "rationale" = none ∧
    pyGet (errorRecord "crashing_rule" "division by zero") "type" =
      some (VStr "__engine_error__") :=
  ⟨rfl, rfl, rfl, rfl, rfl⟩

/-- C6 amended: whenever a rule raises during a run, the output contains
one synthetic dict whose `type` is `"__engine_error__"`, whose `rule` is
the failing rule's name, whose `error` is the message, and whose
`description` spells out both; it carries no `rule_name`, `severity` or
`rationale` field. -/
theorem engine_error_entry_fields
    (pre post : List Rule) (bad : Rule) (stmts : List Stmt) (e : String)
    (hbad : bad.run stmts = .error e) :
    errorRecord bad.name e ∈ evaluate (pre ++ bad :: post) stmts ∧
    pyGet (errorRecord bad.name e) "type" = some (VStr "__engine_error__") ∧
    pyGet (errorRecord bad.name e) "rule" = some (VStr bad.name) ∧
    pyGet (errorRecord bad.name e) "error" = some (VStr e) ∧
    pyGet (errorRecord bad.name e) "description" =
      some (VStr ("Rule engine error in " ++ bad.name ++ ": " ++ e)) ∧
    pyGet (errorRecord bad.name e) "contradiction_id" = some (VStr ("error_" ++ bad.name)) ∧
    pyGet (errorRecord bad.name e) "rule_name" = none ∧
    pyGet (errorRecord bad.name e) "severity" = none ∧
    pyGet (errorRecord bad.name e) "rationale" = none := by
  have hout : runOut stmts bad = [errorRecord bad.name e] := by
    unfold runOut; rw [hbad]
  refine ⟨?_, rfl, rfl, rfl, rfl, rfl, rfl, rfl, rfl⟩
  rw [evaluate_eq_flatMap, List.flatMap_append, List.flatMap_cons, hout]
  simp

/-- C6 witness: a concrete raising rule. -/
theorem engine_error_entry_fields_witness :
    c6bad.run [] = .error "division by zero" ∧
    errorRecord "crashing_rule" "division by zero" ∈ evaluate ([] ++ c6bad :: []) [] :=
  ⟨rfl, (engine_error_entry_fields [] [] c6bad [] "division by zero" rfl).1⟩

/-! ## Claim C9 -/

def evtS1 : Stmt := [("type", VStr "EVENT_DATE"), ("event_id", VStr "X"), ("date", VStr "2025-01-01")]

def evtS2 : Stmt := [("type", VStr "EVENT_DATE"), ("event_id", VStr "X"), ("date", VStr "2025-01-05")]

def evtS3 : Stmt := [("type", VStr "EVENT_DATE"), ("event_id", VStr "X"), ("date", VStr "2025-01-06")]

/-- C9: three `EVENT_DATE` statements for event `X` with three pairwise
distinct dates yield exactly three date-disagreement contradictions, one
per unordered pair of distinct dates. -/
theorem event_date_disagreement_three_dates :
    event_date_disagreement ⟨"doc1", [evtS1, evtS2, evtS3]⟩ =
      [⟨"event_date_disagreement", "high", VStr "X",
        "Event X has conflicting dates: 2025-01-01 vs 2025-01-05.", evtS1, evtS2⟩,
       ⟨"event_date_disagreement", "high", VStr "X",
        "Event X has conflicting dates: 2025-01-01 vs 2025-01-06.", evtS1, evtS3⟩,
       ⟨"event_date_disagreement", "high", VStr "X",
        "Event X has conflicting dates: 2025-01-05 vs 2025-01-06.", evtS2, evtS3⟩] := by
  decide

/-! ## Claim C8 -/

/-- The weight the default weights table resolves to for each
contradiction type. -/
def defaultWeightFor (t : String) : ℚ :=
  if t = "timeline_inconsistency" ∨ t = "temporal_anomaly" then 7/10
  else if t = "name_alteration" then 4/5
  else if t = "content_modification" then 3/4
  else 4/5

theorem defaultWeight_resolution (t : String) :
    (if t = "timeline_inconsistency" ∨ t = "temporal_anomaly" then
       get_weight defaultWeights "document_integrity" "timeline_inconsistency" (7/10)
     else if t = "name_alteration" then
       get_weight defaultWeights "document_integrity" "name_alteration" (4/5)
     else if t = "content_modification" then
       get_weight defaultWeights "document_integrity" "content_modification" (3/4)
     else get_weight defaultWeights "pattern_analysis" "cross_document_inconsistency" (4/5))
    = defaultWeightFor t := by
  unfold defaultWeightFor
  split_ifs <;> rfl

theorem severity_multiplier_cases (s : String) :
    severity_multiplier s = 4/5 ∨ severity_multiplier s = 1 ∨
    severity_multiplier s = 6/5 ∨ severity_multiplier s = 3/2 := by
  unfold severity_multiplier
  by_cases h1 : s = "low"
  · subst h1; simp [List.lookup]
  by_cases h2 : s = "medium"
  · subst h2; simp [List.lookup]
  by_cases h3 : s = "high"
  · subst h3; simp [List.lookup]
  by_cases h4 : s = "critical"
  · subst h4; simp [List.lookup]
  have b1 : (s == "low") = false := by simp [h1]
  have b2 : (s == "medium") = false := by simp [h2]
  have b3 : (s == "high") = false := by simp [h3]
  have b4 : (s == "critical") = false := by simp [h4]
  simp [List.lookup, b1, b2, b3, b4]

/-- C8 counterexample: for the concrete candidate
`(type='numeric_amount_mismatch', confidence absent, severity='medium')`
the scorer produces 40, while the claimed formula
`severity_weight * 10 + rule_base_weight` gives `2 * 10 + 6 = 26` from the
(unused) `rule_meta.py` tables. -/
theorem score_formula_counterexample :
    (score_single_contradiction defaultWeights (some "numeric_amount_mismatch") none
      (some "medium")).weighted_score = 40 ∧
    SEVERITY_BASE.lookup "medium" = some 2 ∧
    (RULE_META.lookup "numeric_amount_mismatch").map RuleMetaEntry.base_weight = some 6 ∧
    (40 : ℚ) ≠ 2 * 10 + 6 := by
  refine ⟨?_, rfl, rfl, by norm_num⟩
  show pyRound1 ((1/2 : ℚ) * (4/5) * 1 * 100) = 40
  norm_num [pyRound1]

/-- C8 amended: `_score_single_contradiction` computes
`weighted_score = round(confidence * weight * severity_multiplier * 100, 1)`
with confidence defaulting to 1/2, the weight resolved from the weights
table per contradiction type (defaults 7/10, 4/5, 3/4, else 4/5), and
multipliers low=4/5, medium=1, high=6/5, critical=3/2; for confidence in
`[0,1]` the unrounded score lies in `[0,150]`.  The additive
`severity_weight * 10 + rule_base_weight` tables of `rule_meta.py` play no
part. -/
theorem score_single_weighted_formula
    (ctype : Option String) (confidence : Option ℚ) (severity : Option String) (conf : ℚ)
    (hconf : confidence.getD (1/2) = conf) (h0 : 0 ≤ conf) (h1 : conf ≤ 1) :
    (score_single_contradiction defaultWeights ctype confidence severity).weighted_score =
      pyRound1 (conf * defaultWeightFor (ctype.getD "unknown") *
        severity_multiplier (severity.getD "medium") * 100) ∧
    0 ≤ conf * defaultWeightFor (ctype.getD "unknown") *
        severity_multiplier (severity.getD "medium") * 100 ∧
    conf * defaultWeightFor (ctype.getD "unknown") *
        severity_multiplier (severity.getD "medium") * 100 ≤ 150 := by
  have hw0 : 0 ≤ defaultWeightFor (ctype.getD "unknown") := by
    unfold defaultWeightFor; split_ifs <;> norm_num
  have hw1 : defaultWeightFor (ctype.getD "unknown") ≤ 1 := by
    unfold defaultWeightFor; split_ifs <;> norm_num
  have hm0 : 0 ≤ severity_multiplier (severity.getD "medium") := by
    rcases severity_multiplier_cases (severity.getD "medium") with h | h | h | h <;>
      rw [h] <;> norm_num
  have hm1 : severity_multiplier (severity.getD "medium") ≤ 3/2 := by
    rcases severity_multiplier_cases (severity.getD "medium") with h | h | h | h <;>
      rw [h] <;> norm_num
  refine ⟨?_, ?_, ?_⟩
  · show pyRound1 ((confidence.getD (1/2)) *
      (if (ctype.getD "unknown") = "timeline_inconsistency" ∨ (ctype.getD "unknown") = "temporal_anomaly" then
         get_weight defaultWeights "document_integrity" "timeline_inconsistency" (7/10)
       else if (ctype.getD "unknown") = "name_alteration" then
         get_weight defaultWeights "document_integrity" "name_alteration" (4/5)
       else if (ctype.getD "unknown") = "content_modification" then
         get_weight defaultWeights "document_integrity" "content_modification" (3/4)
       else get_weight defaultWeights "pattern_analysis" "cross_document_inconsistency" (4/5)) *
      severity_multiplier (severity.getD "medium") * 100) = _
    rw [hconf, defaultWeight_resolution]
  · exact mul_nonneg (mul_nonneg (mul_nonneg h0 hw0) hm0) (by norm_num)
  · have hcw0 : 0 ≤ conf * defaultWeightFor (ctype.getD "unknown") := mul_nonneg h0 hw0
    have hcw1 : conf * defaultWeightFor (ctype.getD "unknown") ≤ 1 := mul_le_one₀ h1 hw0 hw1
    have h3 : conf * defaultWeightFor (ctype.getD "unknown") *
        severity_multiplier (severity.getD "medium") ≤ 3/2 := by
      calc conf * defaultWeightFor (ctype.getD "unknown") *
          severity_multiplier (severity.getD "medium") ≤ 1 * (3/2) :=
            mul_le_mul hcw1 hm1 hm0 (by norm_num)
        _ = 3/2 := by norm_num
    have h4 : conf * defaultWeightFor (ctype.getD "unknown") *
        severity_multiplier (severity.getD "medium") * 100 ≤ (3/2) * 100 :=
      mul_le_mul_of_nonneg_right h3 (by norm_num)
    linarith

/-- C8 witness: a concrete timeline candidate with confidence 9/10 and
high severity. -/
theorem score_single_weighted_formula_witness :
    ((some (9/10 : ℚ)).getD (1/2) = (9/10 : ℚ)) ∧ (0 ≤ (9/10 : ℚ)) ∧ ((9/10 : ℚ) ≤ 1) ∧
    ((score_single_contradiction defaultWeights (some "timeline_inconsistency")
        (some (9/10)) (some "high")).weighted_score =
      pyRound1 ((9/10 : ℚ) * defaultWeightFor ((some "timeline_inconsistency").getD "unknown") *
        severity_multiplier ((some "high").getD "medium") * 100) ∧
     0 ≤ (9/10 : ℚ) * defaultWeightFor ((some "timeline_inconsistency").getD "unknown") *
        severity_multiplier ((some "high").getD "medium") * 100 ∧
     (9/10 : ℚ) * defaultWeightFor ((some "timeline_inconsistency").getD "unknown") *
        severity_multiplier ((some "high").getD "medium") * 100 ≤ 150) :=
  ⟨rfl, by norm_num, by norm_num,
   score_single_weighted_formula (some "timeline_inconsistency") (some (9/10)) (some "high")
     (9/10) rfl (by norm_num) (by norm_num)⟩

/-! ## Claim C7 -/

set_option maxRecDepth 1000000 in
set_option maxHeartbeats 6000000 in
theorem availableFingerprints_nodup :
    (availableRuleNames.sublists.map get_rules_fingerprint).Nodup := by
  decide

/-- C7: `get_rules_fingerprint` hashes the sorted rule-name list, so any
two registries holding the same names (in any registration order) get the
same fingerprint; and over all subsets of the program's available rule
names, distinct name sets get distinct fingerprints, so adding or removing
any available rule changes the fingerprint. -/
theorem get_rules_fingerprint_stable_and_sensitive :
    (∀ l₁ l₂ : List String, l₁.Perm l₂ →
      get_rules_fingerprint l₁ = get_rules_fingerprint l₂) ∧
    (∀ s₁ s₂ : List String, s₁ ∈ availableRuleNames.sublists →
      s₂ ∈ availableRuleNames.sublists → s₁ ≠ s₂ →
      get_rules_fingerprint s₁ ≠ get_rules_fingerprint s₂) := by
  constructor
  · intro l₁ l₂ h
    unfold get_rules_fingerprint
    rw [pySort_eq_of_perm h]
  · intro s₁ s₂ h₁ h₂ hne hfp
    exact hne (List.inj_on_of_nodup_map availableFingerprints_nodup h₁ h₂ hfp)

/-- C7 witness: reordering two registered rules keeps the fingerprint;
dropping one of them changes it. -/
theorem get_rules_fingerprint_witness :
    (["numeric_amount_mismatch", "presence_absence_conflict"].Perm
      ["presence_absence_conflict", "numeric_amount_mismatch"]) ∧
    (["presence_absence_conflict"] ∈ availableRuleNames.sublists) ∧
    (["presence_absence_conflict", "numeric_amount_mismatch"] ∈ availableRuleNames.sublists) ∧
    (["presence_absence_conflict"] ≠ ["presence_absence_conflict", "numeric_amount_mismatch"]) ∧
    get_rules_fingerprint ["numeric_amount_mismatch", "presence_absence_conflict"] =
      get_rules_fingerprint ["presence_absence_conflict", "numeric_amount_mismatch"] ∧
    get_rules_fingerprint ["presence_absence_conflict"] ≠
      get_rules_fingerprint ["presence_absence_conflict", "numeric_amount_mismatch"] :=
  ⟨by decide, by decide, by decide, by decide,
   get_rules_fingerprint_stable_and_sensitive.1
     ["numeric_amount_mismatch", "presence_absence_conflict"]
     ["presence_absence_conflict", "numeric_amount_mismatch"] (by decide),
   get_rules_fingerprint_stable_and_sensitive.2
     ["presence_absence_conflict"]
     ["presence_absence_conflict", "numeric_amount_mismatch"]
     (by decide) (by decide) (by decide)⟩
